import Mathlib

/-!
Verification of the Twitch provider utilities of vidstack-player:
URL parsing (resolveTwitchSource with its two regular expressions),
the quality-object adapter (twitchQualityToVideoQuality), and the
poster probe-and-cache routine (findTwitchPoster with posterCache and
pendingFetch).

Strings are modelled as lists of characters.  The two JavaScript regular
expressions are modelled by explicit leftmost-match scanning functions that
follow the engine semantics: positions are tried left to right, and at each
position the alternatives of the leading group are tried in their textual
order.
-/

/-- Word character class of JavaScript regular expressions: [A-Za-z0-9_]. -/
def isWordChar (c : Char) : Bool :=
  c.isAlpha || c.isDigit || c = '_'

/-- Matches a literal against the front of a string, returning the rest of
the string on success.  This models matching the literal pieces of the
regular expressions. -/
def stripLit : List Char → List Char → Option (List Char)
  | [], s => some s
  | _ :: _, [] => none
  | p :: ps, c :: cs => if p = c then stripLit ps cs else none

/-- Whether the string starts with the given literal. -/
def leadsWith (p s : List Char) : Bool :=
  (stripLit p s).isSome

/-- Continuation of channelNameRE after one of its alternatives matched:
the negative lookahead (?!videos?) followed by the capture (\w+)$.
The lookahead fails exactly when the remaining text starts with "video",
and (\w+)$ succeeds exactly when the remaining text is a nonempty run of
word characters reaching the end of the input. -/
def chanTail (r : List Char) : Option (List Char) :=
  if leadsWith ("video".toList) r then none
  else if r = [] then none
  else if r.all isWordChar then some r else none

/-- Tries one alternative of channelNameRE at the current position. -/
def chanTry (p s : List Char) : Option (List Char) :=
  match stripLit p s with
  | some r => chanTail r
  | none => none

/-- channelNameRE attempted at one position: the three alternatives
twitch.tv/, player.twitch.tv/?channel=, twitch/ in their textual order. -/
def chanAt (s : List Char) : Option (List Char) :=
  (chanTry ("twitch.tv/".toList) s).orElse fun _ =>
    (chanTry ("player.twitch.tv/?channel=".toList) s).orElse fun _ =>
      chanTry ("twitch/".toList) s

/-- Leftmost match of channelNameRE, returning the capture group. -/
def matchChannel : List Char → Option (List Char)
  | [] => chanAt []
  | c :: cs =>
    match chanAt (c :: cs) with
    | some g => some g
    | none => matchChannel cs

/-- Continuation of videoIdRE after one of its alternatives matched:
the capture (\d+), greedy with nothing following, so it takes the maximal
run of digits and requires it to be nonempty. -/
def vidTail (r : List Char) : Option (List Char) :=
  if r.takeWhile Char.isDigit = [] then none
  else some (r.takeWhile Char.isDigit)

/-- Tries one alternative of videoIdRE at the current position. -/
def vidTry (p s : List Char) : Option (List Char) :=
  match stripLit p s with
  | some r => vidTail r
  | none => none

/-- videoIdRE attempted at one position: the three alternatives
twitch.tv/videos/, player.twitch.tv/?video=, twitch/video/ in their
textual order. -/
def vidAt (s : List Char) : Option (List Char) :=
  (vidTry ("twitch.tv/videos/".toList) s).orElse fun _ =>
    (vidTry ("player.twitch.tv/?video=".toList) s).orElse fun _ =>
      vidTry ("twitch/video/".toList) s

/-- Leftmost match of videoIdRE, returning the capture group. -/
def matchVideoId : List Char → Option (List Char)
  | [] => vidAt []
  | c :: cs =>
    match vidAt (c :: cs) with
    | some g => some g
    | none => matchVideoId cs

/-- Result type of resolveTwitchSource: an optional channel name and an
optional video id. -/
structure TwitchSource where
  channel : Option (List Char)
  videoId : Option (List Char)
deriving DecidableEq

/-- resolveTwitchSource: first tries videoIdRE; on a match returns only the
video id.  Otherwise tries channelNameRE; on a match returns only the
channel.  Otherwise returns the empty result. -/
def resolveTwitchSource (src : List Char) : TwitchSource :=
  match matchVideoId src with
  | some v => ⟨none, some v⟩
  | none =>
    match matchChannel src with
    | some c => ⟨some c, none⟩
    | none => ⟨none, none⟩

/-- Modelled from the spec: TwitchQuality (declared in embed/event, which is
not under src/) is the Twitch player quality object; the fields below are
exactly those read by twitchQualityToVideoQuality. -/
structure TwitchQuality where
  name : String
  width : Nat
  height : Nat
  bitrate : Nat
  codecs : String
deriving DecidableEq

/-- Modelled from the spec: VideoQuality (declared in core/quality, which is
not under src/) is the host player quality object; the fields below are
exactly those written by twitchQualityToVideoQuality. -/
structure VideoQuality where
  id : String
  width : Nat
  height : Nat
  bitrate : Nat
  codec : String
  selected : Bool
deriving DecidableEq

/-- Convert a Twitch quality object to a native VideoQuality object.
The selected flag models the strict equality test
activeQuality === quality.name, where activeQuality may be undefined. -/
def twitchQualityToVideoQuality (quality : TwitchQuality)
    (activeQuality : Option String) : VideoQuality :=
  { id := quality.name
    width := quality.width
    height := quality.height
    bitrate := quality.bitrate
    codec := quality.codecs
    selected := activeQuality == some quality.name }

/-- Outcome of one fetch call: a response with a status code, or a thrown
error (network failure or an abort through the AbortController signal). -/
inductive FetchOutcome
  | ok (status : Nat)
  | err
deriving DecidableEq

/-- The three fixed probe sizes, in the order the code tries them. -/
def sizes : List (Nat × Nat) :=
  [(1920, 1080), (1280, 720), (640, 360)]

/-- Live channel preview URL:
https://static-cdn.jtvnw.net/previews-ttv/live_user_{channel}-{width}x{height}.jpg -/
def channelPosterUrl (src : List Char) (w h : Nat) : List Char :=
  "https://static-cdn.jtvnw.net/previews-ttv/live_user_".toList ++
    (src ++ ("-".toList ++ ((Nat.repr w).toList ++ ("x".toList ++
      ((Nat.repr h).toList ++ ".jpg".toList)))))

/-- VOD thumbnail URL:
https://static-cdn.jtvnw.net/cf_vods/{video_id}/thumb/thumb0-{width}x{height}.jpg -/
def videoPosterUrl (src : List Char) (w h : Nat) : List Char :=
  "https://static-cdn.jtvnw.net/cf_vods/".toList ++
    (src ++ ("/thumb/thumb0-".toList ++ ((Nat.repr w).toList ++ ("x".toList ++
      ((Nat.repr h).toList ++ ".jpg".toList)))))

/-- The URL probed for a given source key and size. -/
def posterUrl (src : List Char) (isChannel : Bool) (w h : Nat) : List Char :=
  if isChannel then channelPosterUrl src w h else videoPosterUrl src w h

/-- Record of one run of the probe loop of findTwitchPoster: the string the
promise resolves to, the URLs fetched in order, and the value stored into
posterCache (if any). -/
structure ProbeRun where
  result : List Char
  probed : List (List Char)
  cached : Option (List Char)
deriving DecidableEq

/-- The probe loop of findTwitchPoster over a list of sizes, with mk
building the URL for a size.  A thrown fetch error is caught by the
surrounding try and resolves the empty string at once; a response with
status < 400 stores the URL in posterCache and resolves it at once; any
other response moves on to the next size; an exhausted list resolves the
empty string. -/
def probeLoop (fetch : List Char → FetchOutcome) (mk : Nat → Nat → List Char) :
    List (Nat × Nat) → ProbeRun
  | [] => ⟨[], [], none⟩
  | (w, h) :: rest =>
    let url := mk w h
    match fetch url with
    | FetchOutcome.err => ⟨[], [url], none⟩
    | FetchOutcome.ok st =>
      if st < 400 then ⟨url, [url], some url⟩
      else
        let r := probeLoop fetch mk rest
        ⟨r.result, url :: r.probed, r.cached⟩

/-- One full run of the probe sequence of findTwitchPoster: the channel
branch probes channel preview URLs, the video branch probes VOD thumbnail
URLs, both over the same three sizes. -/
def runProbes (fetch : List Char → FetchOutcome) (src : List Char)
    (isChannel : Bool) : ProbeRun :=
  if isChannel then probeLoop fetch (channelPosterUrl src) sizes
  else probeLoop fetch (videoPosterUrl src) sizes

/-- Cache key of findTwitchPoster: (isChannel ? 'channel' : 'video') + '-' + src. -/
def cacheKey (src : List Char) (isChannel : Bool) : List Char :=
  (if isChannel then "channel".toList else "video".toList) ++ ("-".toList ++ src)

/-- Lookup in an association list, modelling Map.get with the convention
that a later Map.set shadows earlier entries by being consed in front. -/
def assocFind : List (List Char × List Char) → List Char → Option (List Char)
  | [], _ => none
  | (k, v) :: rest, key => if k = key then some v else assocFind rest key

/-- The module-level mutable state of the poster routine: the posterCache
map of settled successes and the pendingFetch map of in-flight promises
(represented by its key set, since the promise of a key is determined by
the run that registered it). -/
structure PosterState where
  posterCache : List (List Char × List Char)
  pendingFetch : List (List Char)
deriving DecidableEq

/-- What a call to findTwitchPoster does before any asynchronous work:
return a cached value, return the pending promise of the key, or start a
new probe sequence. -/
inductive CallResult
  | cached (url : List Char)
  | pendingHit
  | started
deriving DecidableEq

/-- The synchronous part of findTwitchPoster: check posterCache, then
pendingFetch, else register the new promise under the cache key. -/
def callStep (s : PosterState) (src : List Char) (isChannel : Bool) :
    PosterState × CallResult :=
  let k := cacheKey src isChannel
  match assocFind s.posterCache k with
  | some u => (s, CallResult.cached u)
  | none =>
    if k ∈ s.pendingFetch then (s, CallResult.pendingHit)
    else ({ s with pendingFetch := k :: s.pendingFetch }, CallResult.started)

/-- Settlement of the pending promise of a key: the probe run resolves,
a success was stored into posterCache by the loop, and the finally handler
deletes the key from pendingFetch. -/
def settleStep (s : PosterState) (src : List Char) (isChannel : Bool)
    (fetch : List Char → FetchOutcome) : PosterState × ProbeRun :=
  let k := cacheKey src isChannel
  let r := runProbes fetch src isChannel
  ({ posterCache :=
      match r.cached with
      | some u => (k, u) :: s.posterCache
      | none => s.posterCache
     pendingFetch := s.pendingFetch.filter (fun x => x ≠ k) }, r)

/-- Event-loop steps of the poster routine: a call to findTwitchPoster, or
the settlement of an in-flight promise. -/
inductive Step : PosterState → PosterState → Prop
  | call (s : PosterState) (src : List Char) (isChannel : Bool) :
      Step s (callStep s src isChannel).1
  | settle (s : PosterState) (src : List Char) (isChannel : Bool)
      (fetch : List Char → FetchOutcome)
      (h : cacheKey src isChannel ∈ s.pendingFetch) :
      Step s (settleStep s src isChannel fetch).1

/-- The initial state: both module-level maps are empty. -/
def initState : PosterState := ⟨[], []⟩

/-- States reachable from the initial state by event-loop steps. -/
def Reachable (s : PosterState) : Prop :=
  Relation.ReflTransGen Step initState s

example : resolveTwitchSource ("https://www.twitch.tv/example".toList) =
    ⟨some ("example".toList), none⟩ := by decide

example : resolveTwitchSource ("https://www.twitch.tv/videos/123456789".toList) =
    ⟨none, some ("123456789".toList)⟩ := by decide

example : resolveTwitchSource ("https://player.twitch.tv/?channel=example".toList) =
    ⟨some ("example".toList), none⟩ := by decide

example : resolveTwitchSource ("https://player.twitch.tv/?video=123".toList) =
    ⟨none, some ("123".toList)⟩ := by decide

example : resolveTwitchSource ("twitch/example".toList) =
    ⟨some ("example".toList), none⟩ := by decide

example : resolveTwitchSource ("twitch/video/123".toList) =
    ⟨none, some ("123".toList)⟩ := by decide

example : resolveTwitchSource ("https://www.twitch.tv/videos".toList) =
    ⟨none, none⟩ := by decide

example : resolveTwitchSource ("https://www.twitch.tv/video".toList) =
    ⟨none, none⟩ := by decide

/-! ## Helper lemmas for the regular-expression model -/

theorem stripLit_some_eq (p : List Char) :
    ∀ s r : List Char, stripLit p s = some r → s = p ++ r := by
  induction p with
  | nil =>
    intro s r h
    have h' : some s = some r := h
    simpa using Option.some.inj h'
  | cons a ps ih =>
    intro s r h
    cases s with
    | nil => simp [stripLit] at h
    | cons c cs =>
      rw [stripLit] at h
      by_cases hac : a = c
      · rw [if_pos hac] at h
        subst hac
        rw [List.cons_append]
        rw [ih cs r h]
      · rw [if_neg hac] at h
        exact absurd h (by simp)

theorem stripLit_none_of_word (p t : List Char) (hp : p.all isWordChar = false)
    (ht : t.all isWordChar = true) : stripLit p t = none := by
  cases hs : stripLit p t with
  | none => rfl
  | some r =>
    rw [stripLit_some_eq p t r hs, List.all_append, hp] at ht
    simp at ht

theorem leadsWith_none (p s : List Char) (h : leadsWith p s = false) :
    stripLit p s = none := by
  unfold leadsWith at h
  cases hs : stripLit p s with
  | none => rfl
  | some r => rw [hs] at h; simp at h

theorem stripLit_append_none (p q s : List Char) (h : stripLit p s = none) :
    stripLit (p ++ q) s = none := by
  induction p generalizing s with
  | nil => simp [stripLit] at h
  | cons a ps ih =>
    cases s with
    | nil => rfl
    | cons c cs =>
      rw [List.cons_append, stripLit]
      rw [stripLit] at h
      by_cases hac : a = c
      · rw [if_pos hac] at h ⊢; exact ih cs h
      · rw [if_neg hac]

theorem vidAt_eq_none (s : List Char)
    (h1 : stripLit ("twitch.tv/videos/".toList) s = none)
    (h2 : stripLit ("player.twitch.tv/?video=".toList) s = none)
    (h3 : stripLit ("twitch/video/".toList) s = none) : vidAt s = none := by
  unfold vidAt vidTry
  rw [h1, h2, h3]
  rfl

theorem chanAt_eq_none (s : List Char)
    (h1 : stripLit ("twitch.tv/".toList) s = none)
    (h2 : stripLit ("player.twitch.tv/?channel=".toList) s = none)
    (h3 : stripLit ("twitch/".toList) s = none) : chanAt s = none := by
  unfold chanAt chanTry
  rw [h1, h2, h3]
  rfl

theorem scanVid_step (c : Char) (cs : List Char)
    (h : vidAt (c :: cs) = none) (h2 : matchVideoId cs = none) :
    matchVideoId (c :: cs) = none := by
  simp only [matchVideoId, h, h2]

theorem scanVid_skip (c : Char) (cs : List Char) (h : vidAt (c :: cs) = none) :
    matchVideoId (c :: cs) = matchVideoId cs := by
  simp only [matchVideoId, h]

theorem matchVideoId_cons_some (c : Char) (cs : List Char) (g : List Char)
    (h : vidAt (c :: cs) = some g) : matchVideoId (c :: cs) = some g := by
  simp only [matchVideoId, h]

theorem scanChan_skip (c : Char) (cs : List Char) (h : chanAt (c :: cs) = none) :
    matchChannel (c :: cs) = matchChannel cs := by
  simp only [matchChannel, h]

theorem matchChannel_cons_some (c : Char) (cs g : List Char)
    (h : chanAt (c :: cs) = some g) : matchChannel (c :: cs) = some g := by
  simp only [matchChannel, h]

theorem wordlist_vidAt_none (t : List Char) (ht : t.all isWordChar = true) :
    vidAt t = none :=
  vidAt_eq_none t
    (stripLit_none_of_word _ _ (by decide) ht)
    (stripLit_none_of_word _ _ (by decide) ht)
    (stripLit_none_of_word _ _ (by decide) ht)

theorem wordlist_matchVideoId_none (t : List Char) (ht : t.all isWordChar = true) :
    matchVideoId t = none := by
  induction t with
  | nil => rfl
  | cons c cs ih =>
    have ht' := ht
    rw [List.all_cons, Bool.and_eq_true] at ht'
    exact scanVid_step c cs (wordlist_vidAt_none _ ht) (ih ht'.2)

theorem chanAt_eq_some1 (s r g : List Char)
    (h1 : stripLit ("twitch.tv/".toList) s = some r)
    (hg : chanTail r = some g) : chanAt s = some g := by
  simp only [chanAt, chanTry, h1, hg, Option.orElse]

theorem chanAt_eq_some2 (s r g : List Char)
    (h0 : stripLit ("twitch.tv/".toList) s = none)
    (h2 : stripLit ("player.twitch.tv/?channel=".toList) s = some r)
    (hg : chanTail r = some g) : chanAt s = some g := by
  simp only [chanAt, chanTry, h0, h2, hg, Option.orElse]

theorem chanAt_eq_some3 (s r g : List Char)
    (h0 : stripLit ("twitch.tv/".toList) s = none)
    (h0b : stripLit ("player.twitch.tv/?channel=".toList) s = none)
    (h3 : stripLit ("twitch/".toList) s = some r)
    (hg : chanTail r = some g) : chanAt s = some g := by
  simp only [chanAt, chanTry, h0, h0b, h3, hg, Option.orElse]

theorem vidAt_eq_some1 (s r g : List Char)
    (h1 : stripLit ("twitch.tv/videos/".toList) s = some r)
    (hg : vidTail r = some g) : vidAt s = some g := by
  simp only [vidAt, vidTry, h1, hg, Option.orElse]

theorem vidAt_eq_some2 (s r g : List Char)
    (h0 : stripLit ("twitch.tv/videos/".toList) s = none)
    (h2 : stripLit ("player.twitch.tv/?video=".toList) s = some r)
    (hg : vidTail r = some g) : vidAt s = some g := by
  simp only [vidAt, vidTry, h0, h2, hg, Option.orElse]

theorem vidAt_eq_some3 (s r g : List Char)
    (h0 : stripLit ("twitch.tv/videos/".toList) s = none)
    (h0b : stripLit ("player.twitch.tv/?video=".toList) s = none)
    (h3 : stripLit ("twitch/video/".toList) s = some r)
    (hg : vidTail r = some g) : vidAt s = some g := by
  simp only [vidAt, vidTry, h0, h0b, h3, hg, Option.orElse]

theorem takeWhile_of_all (p : Char → Bool) (l : List Char) (h : l.all p = true) :
    l.takeWhile p = l := by
  induction l with
  | nil => rfl
  | cons c cs ih =>
    rw [List.all_cons, Bool.and_eq_true] at h
    rw [List.takeWhile_cons_of_pos h.1, ih h.2]

theorem vidTail_of_digits (d : List Char) (h0 : d ≠ [])
    (h1 : d.all Char.isDigit = true) : vidTail d = some d := by
  unfold vidTail
  rw [takeWhile_of_all _ _ h1, if_neg h0]

theorem chanTail_of_word (n : List Char) (h0 : n ≠ [])
    (h1 : n.all isWordChar = true)
    (h2 : leadsWith ("video".toList) n = false) : chanTail n = some n := by
  unfold chanTail
  rw [h2, if_neg (by simp), if_neg h0, h1, if_pos rfl]

/-! ## Full-input scan lemmas for the claimed URL shapes -/

theorem chanUrl1_vid_none (n : List Char) (h1 : n.all isWordChar = true)
    (hv : stripLit ("video".toList) n = none) :
    matchVideoId ("https://www.twitch.tv/".toList ++ n) = none := by
  iterate 12 refine scanVid_step _ _ rfl ?_
  refine scanVid_step _ _
    (vidAt_eq_none _ (stripLit_append_none _ ("s/".toList) _ hv) rfl rfl) ?_
  iterate 9 refine scanVid_step _ _ rfl ?_
  exact wordlist_matchVideoId_none n h1

theorem chanUrl1_chan_some (n : List Char) (h0 : n ≠ [])
    (h1 : n.all isWordChar = true)
    (h2 : leadsWith ("video".toList) n = false) :
    matchChannel ("https://www.twitch.tv/".toList ++ n) = some n := by
  iterate 12 refine Eq.trans (scanChan_skip _ _ rfl) ?_
  exact matchChannel_cons_some _ _ _
    (chanAt_eq_some1 _ n n rfl (chanTail_of_word n h0 h1 h2))

theorem chanUrl2_vid_none (n : List Char) (h1 : n.all isWordChar = true) :
    matchVideoId ("https://player.twitch.tv/?channel=".toList ++ n) = none := by
  iterate 34 refine scanVid_step _ _ rfl ?_
  exact wordlist_matchVideoId_none n h1

theorem chanUrl2_chan_some (n : List Char) (h0 : n ≠ [])
    (h1 : n.all isWordChar = true)
    (h2 : leadsWith ("video".toList) n = false) :
    matchChannel ("https://player.twitch.tv/?channel=".toList ++ n) = some n := by
  iterate 8 refine Eq.trans (scanChan_skip _ _ rfl) ?_
  exact matchChannel_cons_some _ _ _
    (chanAt_eq_some2 _ n n rfl rfl (chanTail_of_word n h0 h1 h2))

theorem chanUrl3_vid_none (n : List Char) (h1 : n.all isWordChar = true)
    (hv : stripLit ("video".toList) n = none) :
    matchVideoId ("twitch/".toList ++ n) = none := by
  refine scanVid_step _ _
    (vidAt_eq_none _ rfl rfl (stripLit_append_none _ ("/".toList) _ hv)) ?_
  iterate 6 refine scanVid_step _ _ rfl ?_
  exact wordlist_matchVideoId_none n h1

theorem chanUrl3_chan_some (n : List Char) (h0 : n ≠ [])
    (h1 : n.all isWordChar = true)
    (h2 : leadsWith ("video".toList) n = false) :
    matchChannel ("twitch/".toList ++ n) = some n :=
  matchChannel_cons_some _ _ _
    (chanAt_eq_some3 _ n n rfl rfl rfl (chanTail_of_word n h0 h1 h2))

theorem vidUrl1_vid_some (d : List Char) (h0 : d ≠ [])
    (h1 : d.all Char.isDigit = true) :
    matchVideoId ("https://www.twitch.tv/videos/".toList ++ d) = some d := by
  iterate 12 refine Eq.trans (scanVid_skip _ _ rfl) ?_
  exact matchVideoId_cons_some _ _ _
    (vidAt_eq_some1 _ d d rfl (vidTail_of_digits d h0 h1))

theorem vidUrl2_vid_some (d : List Char) (h0 : d ≠ [])
    (h1 : d.all Char.isDigit = true) :
    matchVideoId ("https://player.twitch.tv/?video=".toList ++ d) = some d := by
  iterate 8 refine Eq.trans (scanVid_skip _ _ rfl) ?_
  exact matchVideoId_cons_some _ _ _
    (vidAt_eq_some2 _ d d rfl rfl (vidTail_of_digits d h0 h1))

theorem vidUrl3_vid_some (d : List Char) (h0 : d ≠ [])
    (h1 : d.all Char.isDigit = true) :
    matchVideoId ("twitch/video/".toList ++ d) = some d :=
  matchVideoId_cons_some _ _ _
    (vidAt_eq_some3 _ d d rfl rfl rfl (vidTail_of_digits d h0 h1))

/-! ## Claim theorems about resolveTwitchSource and the quality adapter -/

/-- C5: resolveTwitchSource returns at most one identifier: when videoIdRE
matches it returns only the video id (even when channelNameRE would also
match); otherwise, when channelNameRE matches, it returns only the channel;
otherwise it returns neither.  The result never carries both fields. -/
theorem resolveTwitchSource_at_most_one (s : List Char) :
    ((resolveTwitchSource s).channel = none ∨
      (resolveTwitchSource s).videoId = none) ∧
    (∀ v, matchVideoId s = some v → resolveTwitchSource s = ⟨none, some v⟩) ∧
    (matchVideoId s = none → ∀ c, matchChannel s = some c →
      resolveTwitchSource s = ⟨some c, none⟩) ∧
    (matchVideoId s = none → matchChannel s = none →
      resolveTwitchSource s = ⟨none, none⟩) := by
  refine ⟨?_, ?_, ?_, ?_⟩
  · cases hv : matchVideoId s with
    | some v => simp [resolveTwitchSource, hv]
    | none =>
      cases hc : matchChannel s with
      | some c => simp [resolveTwitchSource, hv, hc]
      | none => simp [resolveTwitchSource, hv, hc]
  · intro v hv; simp [resolveTwitchSource, hv]
  · intro hv c hc; simp [resolveTwitchSource, hv, hc]
  · intro hv hc; simp [resolveTwitchSource, hv, hc]

/-- Witness for C5 at the concrete input twitch/video/1. -/
theorem resolveTwitchSource_at_most_one_witness :
    resolveTwitchSource ("twitch/video/1".toList) = ⟨none, some ("1".toList)⟩ :=
  (resolveTwitchSource_at_most_one ("twitch/video/1".toList)).2.1
    ("1".toList) rfl

/-- C6 counterexample: the name "video" consists only of word characters,
yet resolveTwitchSource does not return it as the channel for the input
https://www.twitch.tv/video, because the negative lookahead (?!videos?) of
channelNameRE rejects names starting with "video". -/
theorem channelNameRE_video_counterexample :
    (("video".toList) ≠ [] ∧ ("video".toList).all isWordChar = true) ∧
    (resolveTwitchSource ("https://www.twitch.tv/".toList ++ "video".toList)).channel ≠
      some ("video".toList) := by decide

/-- C6 (amended): for every nonempty name n of word characters that does
not start with "video", resolveTwitchSource returns channel = n (and no
video id) for the three claimed URL shapes. -/
theorem channelNameRE_matches (n : List Char) (h0 : n ≠ [])
    (h1 : n.all isWordChar = true)
    (h2 : leadsWith ("video".toList) n = false) :
    resolveTwitchSource ("https://www.twitch.tv/".toList ++ n) = ⟨some n, none⟩ ∧
    resolveTwitchSource ("https://player.twitch.tv/?channel=".toList ++ n) =
      ⟨some n, none⟩ ∧
    resolveTwitchSource ("twitch/".toList ++ n) = ⟨some n, none⟩ := by
  have hv := leadsWith_none _ _ h2
  refine ⟨?_, ?_, ?_⟩
  · unfold resolveTwitchSource
    rw [chanUrl1_vid_none n h1 hv, chanUrl1_chan_some n h0 h1 h2]
  · unfold resolveTwitchSource
    rw [chanUrl2_vid_none n h1, chanUrl2_chan_some n h0 h1 h2]
  · unfold resolveTwitchSource
    rw [chanUrl3_vid_none n h1 hv, chanUrl3_chan_some n h0 h1 h2]

/-- Witness for the amended C6 at the concrete name example. -/
theorem channelNameRE_matches_witness :
    resolveTwitchSource ("https://www.twitch.tv/".toList ++ "example".toList) =
      ⟨some ("example".toList), none⟩ ∧
    resolveTwitchSource ("https://player.twitch.tv/?channel=".toList ++
      "example".toList) = ⟨some ("example".toList), none⟩ ∧
    resolveTwitchSource ("twitch/".toList ++ "example".toList) =
      ⟨some ("example".toList), none⟩ :=
  channelNameRE_matches ("example".toList) (by decide) (by decide) (by decide)

/-- C7: for every nonempty digit string d, resolveTwitchSource returns
videoId = d (and no channel) for the three claimed URL shapes, and the
input https://www.twitch.tv/videos with no trailing id yields neither a
channel nor a video id. -/
theorem videoIdRE_matches (d : List Char) (h0 : d ≠ [])
    (h1 : d.all Char.isDigit = true) :
    resolveTwitchSource ("https://www.twitch.tv/videos/".toList ++ d) =
      ⟨none, some d⟩ ∧
    resolveTwitchSource ("https://player.twitch.tv/?video=".toList ++ d) =
      ⟨none, some d⟩ ∧
    resolveTwitchSource ("twitch/video/".toList ++ d) = ⟨none, some d⟩ ∧
    resolveTwitchSource ("https://www.twitch.tv/videos".toList) =
      ⟨none, none⟩ := by
  refine ⟨?_, ?_, ?_, by decide⟩
  · unfold resolveTwitchSource
    rw [vidUrl1_vid_some d h0 h1]
  · unfold resolveTwitchSource
    rw [vidUrl2_vid_some d h0 h1]
  · unfold resolveTwitchSource
    rw [vidUrl3_vid_some d h0 h1]

/-- Witness for C7 at the concrete id 123456789. -/
theorem videoIdRE_matches_witness :
    resolveTwitchSource ("https://www.twitch.tv/videos/".toList ++
      "123456789".toList) = ⟨none, some ("123456789".toList)⟩ ∧
    resolveTwitchSource ("https://player.twitch.tv/?video=".toList ++
      "123456789".toList) = ⟨none, some ("123456789".toList)⟩ ∧
    resolveTwitchSource ("twitch/video/".toList ++ "123456789".toList) =
      ⟨none, some ("123456789".toList)⟩ ∧
    resolveTwitchSource ("https://www.twitch.tv/videos".toList) =
      ⟨none, none⟩ :=
  videoIdRE_matches ("123456789".toList) (by decide) (by decide)

/-- C8: the quality adapter copies name, width, height, bitrate and codecs
into id, width, height, bitrate and codec, and sets selected exactly when
the active quality name equals the quality's name. -/
theorem twitchQualityToVideoQuality_fields (q : TwitchQuality)
    (a : Option String) :
    (twitchQualityToVideoQuality q a).id = q.name ∧
    (twitchQualityToVideoQuality q a).width = q.width ∧
    (twitchQualityToVideoQuality q a).height = q.height ∧
    (twitchQualityToVideoQuality q a).bitrate = q.bitrate ∧
    (twitchQualityToVideoQuality q a).codec = q.codecs ∧
    ((twitchQualityToVideoQuality q a).selected = true ↔ a = some q.name) := by
  refine ⟨rfl, rfl, rfl, rfl, rfl, ?_⟩
  simp [twitchQualityToVideoQuality]

/-! ## Helper lemmas for the probe loop -/

theorem probeLoop_cons (fetch : List Char → FetchOutcome)
    (mk : Nat → Nat → List Char) (w hh : Nat) (rest : List (Nat × Nat)) :
    probeLoop fetch mk ((w, hh) :: rest) =
      match fetch (mk w hh) with
      | FetchOutcome.err => ⟨[], [mk w hh], none⟩
      | FetchOutcome.ok st =>
        if st < 400 then ⟨mk w hh, [mk w hh], some (mk w hh)⟩
        else
          ⟨(probeLoop fetch mk rest).result,
            mk w hh :: (probeLoop fetch mk rest).probed,
            (probeLoop fetch mk rest).cached⟩ := rfl

theorem probeLoop_three (fetch : List Char → FetchOutcome)
    (mk : Nat → Nat → List Char) (s1 s2 s3 : Nat)
    (h1 : fetch (mk 1920 1080) = FetchOutcome.ok s1)
    (h2 : fetch (mk 1280 720) = FetchOutcome.ok s2)
    (h3 : fetch (mk 640 360) = FetchOutcome.ok s3) :
    (s1 < 400 → probeLoop fetch mk sizes =
      ⟨mk 1920 1080, [mk 1920 1080], some (mk 1920 1080)⟩) ∧
    (400 ≤ s1 → s2 < 400 → probeLoop fetch mk sizes =
      ⟨mk 1280 720, [mk 1920 1080, mk 1280 720], some (mk 1280 720)⟩) ∧
    (400 ≤ s1 → 400 ≤ s2 → s3 < 400 → probeLoop fetch mk sizes =
      ⟨mk 640 360, [mk 1920 1080, mk 1280 720, mk 640 360],
        some (mk 640 360)⟩) ∧
    (400 ≤ s1 → 400 ≤ s2 → 400 ≤ s3 → probeLoop fetch mk sizes =
      ⟨[], [mk 1920 1080, mk 1280 720, mk 640 360], none⟩) := by
  refine ⟨?_, ?_, ?_, ?_⟩
  · intro hs1
    simp [sizes, probeLoop_cons, h1, hs1]
  · intro hs1 hs2
    simp [sizes, probeLoop_cons, h1, h2, Nat.not_lt.mpr hs1, hs2]
  · intro hs1 hs2 hs3
    simp [sizes, probeLoop_cons, h1, h2, h3, Nat.not_lt.mpr hs1,
      Nat.not_lt.mpr hs2, hs3]
  · intro hs1 hs2 hs3
    simp [sizes, probeLoop_cons, probeLoop, h1, h2, h3, Nat.not_lt.mpr hs1,
      Nat.not_lt.mpr hs2, Nat.not_lt.mpr hs3]

theorem probeLoop_err (fetch : List Char → FetchOutcome)
    (mk : Nat → Nat → List Char) (s1 s2 : Nat) :
    (fetch (mk 1920 1080) = FetchOutcome.err → probeLoop fetch mk sizes =
      ⟨[], [mk 1920 1080], none⟩) ∧
    (fetch (mk 1920 1080) = FetchOutcome.ok s1 → 400 ≤ s1 →
      fetch (mk 1280 720) = FetchOutcome.err → probeLoop fetch mk sizes =
      ⟨[], [mk 1920 1080, mk 1280 720], none⟩) ∧
    (fetch (mk 1920 1080) = FetchOutcome.ok s1 → 400 ≤ s1 →
      fetch (mk 1280 720) = FetchOutcome.ok s2 → 400 ≤ s2 →
      fetch (mk 640 360) = FetchOutcome.err → probeLoop fetch mk sizes =
      ⟨[], [mk 1920 1080, mk 1280 720, mk 640 360], none⟩) := by
  refine ⟨?_, ?_, ?_⟩
  · intro h1
    simp [sizes, probeLoop_cons, h1]
  · intro h1 hs1 h2
    simp [sizes, probeLoop_cons, h1, h2, Nat.not_lt.mpr hs1]
  · intro h1 hs1 h2 hs2 h3
    simp [sizes, probeLoop_cons, h1, h2, h3, Nat.not_lt.mpr hs1,
      Nat.not_lt.mpr hs2]

theorem probeLoop_cached (fetch : List Char → FetchOutcome)
    (mk : Nat → Nat → List Char) (l : List (Nat × Nat)) (u : List Char)
    (h : (probeLoop fetch mk l).cached = some u) :
    (probeLoop fetch mk l).result = u ∧
    (∃ w hh, (w, hh) ∈ l ∧ u = mk w hh) ∧
    ∃ st, fetch u = FetchOutcome.ok st ∧ st < 400 := by
  induction l with
  | nil => simp [probeLoop] at h
  | cons wh rest ih =>
    obtain ⟨w, hh⟩ := wh
    cases hf : fetch (mk w hh) with
    | ok st =>
      by_cases hlt : st < 400
      · simp only [probeLoop_cons, hf, if_pos hlt] at h ⊢
        obtain hu := Option.some.inj h
        subst hu
        exact ⟨rfl, ⟨w, hh, List.mem_cons_self _ _, rfl⟩, st, hf, hlt⟩
      · simp only [probeLoop_cons, hf, if_neg hlt] at h ⊢
        obtain ⟨r1, ⟨w', hh', hmem, hu⟩, r3⟩ := ih h
        exact ⟨r1, ⟨w', hh', List.mem_cons_of_mem _ hmem, hu⟩, r3⟩
    | err =>
      simp only [probeLoop_cons, hf] at h
      exact Option.noConfusion h

theorem probeLoop_result_cached (fetch : List Char → FetchOutcome)
    (mk : Nat → Nat → List Char) (l : List (Nat × Nat))
    (h : (probeLoop fetch mk l).result ≠ []) :
    (probeLoop fetch mk l).cached = some (probeLoop fetch mk l).result := by
  induction l with
  | nil => exact absurd rfl h
  | cons wh rest ih =>
    obtain ⟨w, hh⟩ := wh
    cases hf : fetch (mk w hh) with
    | ok st =>
      by_cases hlt : st < 400
      · simp only [probeLoop_cons, hf, if_pos hlt]
      · simp only [probeLoop_cons, hf, if_neg hlt] at h ⊢
        exact ih h
    | err =>
      simp only [probeLoop_cons, hf] at h
      exact absurd rfl h

theorem channelPosterUrl_ne_nil (src : List Char) (w h : Nat) :
    channelPosterUrl src w h ≠ [] := by
  unfold channelPosterUrl
  intro hcontra
  rw [List.append_eq_nil] at hcontra
  exact absurd hcontra.1 (by decide)

theorem videoPosterUrl_ne_nil (src : List Char) (w h : Nat) :
    videoPosterUrl src w h ≠ [] := by
  unfold videoPosterUrl
  intro hcontra
  rw [List.append_eq_nil] at hcontra
  exact absurd hcontra.1 (by decide)

theorem runProbes_cached (fetch : List Char → FetchOutcome) (src : List Char)
    (b : Bool) (u : List Char) (h : (runProbes fetch src b).cached = some u) :
    (runProbes fetch src b).result = u ∧ u ≠ [] ∧
    ∃ st, fetch u = FetchOutcome.ok st ∧ st < 400 := by
  cases b with
  | true =>
    have h' : (probeLoop fetch (channelPosterUrl src) sizes).cached = some u := h
    obtain ⟨hr, ⟨w, hh, _, hu⟩, hst⟩ := probeLoop_cached _ _ _ _ h'
    exact ⟨hr, by rw [hu]; exact channelPosterUrl_ne_nil src w hh, hst⟩
  | false =>
    have h' : (probeLoop fetch (videoPosterUrl src) sizes).cached = some u := h
    obtain ⟨hr, ⟨w, hh, _, hu⟩, hst⟩ := probeLoop_cached _ _ _ _ h'
    exact ⟨hr, by rw [hu]; exact videoPosterUrl_ne_nil src w hh, hst⟩

theorem runProbes_result_cached (fetch : List Char → FetchOutcome)
    (src : List Char) (b : Bool) (h : (runProbes fetch src b).result ≠ []) :
    (runProbes fetch src b).cached = some (runProbes fetch src b).result := by
  cases b with
  | true => exact probeLoop_result_cached fetch (channelPosterUrl src) sizes h
  | false => exact probeLoop_result_cached fetch (videoPosterUrl src) sizes h

/-! ## Claim theorems about the probe loop -/

/-- C1: for every source key, the probe sequence fetches the URLs of the
three fixed sizes 1920x1080, 1280x720, 640x360 in that descending order and
resolves the URL of the first size whose response has status < 400, issuing
no further probes after that first success; this holds for the channel and
the video URL formats alike. -/
theorem findTwitchPoster_probe_order (fetch : List Char → FetchOutcome)
    (src : List Char) (b : Bool) (s1 s2 s3 : Nat)
    (h1 : fetch (posterUrl src b 1920 1080) = FetchOutcome.ok s1)
    (h2 : fetch (posterUrl src b 1280 720) = FetchOutcome.ok s2)
    (h3 : fetch (posterUrl src b 640 360) = FetchOutcome.ok s3) :
    (s1 < 400 → runProbes fetch src b =
      ⟨posterUrl src b 1920 1080, [posterUrl src b 1920 1080],
        some (posterUrl src b 1920 1080)⟩) ∧
    (400 ≤ s1 → s2 < 400 → runProbes fetch src b =
      ⟨posterUrl src b 1280 720,
        [posterUrl src b 1920 1080, posterUrl src b 1280 720],
        some (posterUrl src b 1280 720)⟩) ∧
    (400 ≤ s1 → 400 ≤ s2 → s3 < 400 → runProbes fetch src b =
      ⟨posterUrl src b 640 360,
        [posterUrl src b 1920 1080, posterUrl src b 1280 720,
          posterUrl src b 640 360],
        some (posterUrl src b 640 360)⟩) := by
  cases b with
  | true =>
    obtain ⟨c1, c2, c3, _⟩ :=
      probeLoop_three fetch (channelPosterUrl src) s1 s2 s3 h1 h2 h3
    exact ⟨c1, c2, c3⟩
  | false =>
    obtain ⟨c1, c2, c3, _⟩ :=
      probeLoop_three fetch (videoPosterUrl src) s1 s2 s3 h1 h2 h3
    exact ⟨c1, c2, c3⟩

/-- Witness for C1: with every probe answering 200, the first URL is
resolved and it is the only one fetched. -/
theorem findTwitchPoster_probe_order_witness :
    runProbes (fun _ => FetchOutcome.ok 200) ("a".toList) true =
      ⟨posterUrl ("a".toList) true 1920 1080,
        [posterUrl ("a".toList) true 1920 1080],
        some (posterUrl ("a".toList) true 1920 1080)⟩ :=
  (findTwitchPoster_probe_order (fun _ => FetchOutcome.ok 200) ("a".toList)
    true 200 200 200 rfl rfl rfl).1 (by decide)

/-- C2: a response with status at least 400 moves the loop to the next
smaller size, and when all three sizes respond with status at least 400 the
probe run resolves the empty string after probing all three URLs, without
throwing. -/
theorem findTwitchPoster_all_fail_empty (fetch : List Char → FetchOutcome)
    (src : List Char) (b : Bool) (s1 s2 s3 : Nat)
    (h1 : fetch (posterUrl src b 1920 1080) = FetchOutcome.ok s1)
    (h2 : fetch (posterUrl src b 1280 720) = FetchOutcome.ok s2)
    (h3 : fetch (posterUrl src b 640 360) = FetchOutcome.ok s3)
    (n1 : 400 ≤ s1) (n2 : 400 ≤ s2) (n3 : 400 ≤ s3) :
    runProbes fetch src b =
      ⟨[], [posterUrl src b 1920 1080, posterUrl src b 1280 720,
        posterUrl src b 640 360], none⟩ := by
  cases b with
  | true =>
    exact (probeLoop_three fetch (channelPosterUrl src) s1 s2 s3
      h1 h2 h3).2.2.2 n1 n2 n3
  | false =>
    exact (probeLoop_three fetch (videoPosterUrl src) s1 s2 s3
      h1 h2 h3).2.2.2 n1 n2 n3

/-- Witness for C2: with every probe answering 404, the run resolves the
empty string after probing all three sizes in order. -/
theorem findTwitchPoster_all_fail_empty_witness :
    runProbes (fun _ => FetchOutcome.ok 404) ("a".toList) false =
      ⟨[], [posterUrl ("a".toList) false 1920 1080,
        posterUrl ("a".toList) false 1280 720,
        posterUrl ("a".toList) false 640 360], none⟩ :=
  findTwitchPoster_all_fail_empty (fun _ => FetchOutcome.ok 404) ("a".toList)
    false 404 404 404 rfl rfl rfl (by decide) (by decide) (by decide)

/-- C9: the probe run always resolves to a string; a thrown fetch error
(including an abort) makes it resolve the empty string at once, without
probing the remaining sizes, no matter at which size the error occurs. -/
theorem findTwitchPoster_error_resolves_empty (fetch : List Char → FetchOutcome)
    (src : List Char) (b : Bool) (s1 s2 : Nat) :
    (fetch (posterUrl src b 1920 1080) = FetchOutcome.err →
      runProbes fetch src b = ⟨[], [posterUrl src b 1920 1080], none⟩) ∧
    (fetch (posterUrl src b 1920 1080) = FetchOutcome.ok s1 → 400 ≤ s1 →
      fetch (posterUrl src b 1280 720) = FetchOutcome.err →
      runProbes fetch src b =
        ⟨[], [posterUrl src b 1920 1080, posterUrl src b 1280 720], none⟩) ∧
    (fetch (posterUrl src b 1920 1080) = FetchOutcome.ok s1 → 400 ≤ s1 →
      fetch (posterUrl src b 1280 720) = FetchOutcome.ok s2 → 400 ≤ s2 →
      fetch (posterUrl src b 640 360) = FetchOutcome.err →
      runProbes fetch src b =
        ⟨[], [posterUrl src b 1920 1080, posterUrl src b 1280 720,
          posterUrl src b 640 360], none⟩) := by
  cases b with
  | true => exact probeLoop_err fetch (channelPosterUrl src) s1 s2
  | false => exact probeLoop_err fetch (videoPosterUrl src) s1 s2

/-- Witness for C9: a fetch that always throws resolves the empty string
after the first probe. -/
theorem findTwitchPoster_error_resolves_empty_witness :
    runProbes (fun _ => FetchOutcome.err) ("a".toList) true =
      ⟨[], [posterUrl ("a".toList) true 1920 1080], none⟩ :=
  (findTwitchPoster_error_resolves_empty (fun _ => FetchOutcome.err)
    ("a".toList) true 0 0).1 rfl

/-! ## Helper lemmas for the cache state machine -/

theorem assocFind_cons_ne (k' v' : List Char)
    (l : List (List Char × List Char)) (k : List Char) (h : k' ≠ k) :
    assocFind ((k', v') :: l) k = assocFind l k := by
  show (if k' = k then some v' else assocFind l k) = assocFind l k
  rw [if_neg h]

theorem step_preserves_key (k u : List Char) (s t : PosterState) (hst : Step s t)
    (h1 : assocFind s.posterCache k = some u) (h2 : k ∉ s.pendingFetch) :
    assocFind t.posterCache k = some u ∧ k ∉ t.pendingFetch := by
  cases hst with
  | call src b =>
    simp only [callStep]
    cases hf : assocFind s.posterCache (cacheKey src b) with
    | some v => simp only [hf]; exact ⟨h1, h2⟩
    | none =>
      simp only [hf]
      by_cases hm : cacheKey src b ∈ s.pendingFetch
      · rw [if_pos hm]; exact ⟨h1, h2⟩
      · rw [if_neg hm]
        refine ⟨h1, ?_⟩
        intro hk
        rcases List.mem_cons.mp hk with he | hm2
        · subst he; rw [hf] at h1; exact Option.noConfusion h1
        · exact h2 hm2
  | settle src b fetch hmem =>
    have hkk : k ≠ cacheKey src b := fun he => h2 (he ▸ hmem)
    constructor
    · simp only [settleStep]
      cases hc : (runProbes fetch src b).cached with
      | some v =>
        simp only [hc]
        rw [assocFind_cons_ne _ _ _ _ (Ne.symm hkk)]
        exact h1
      | none => simp only [hc]; exact h1
    · simp only [settleStep]
      intro hk
      exact h2 (List.mem_of_mem_filter hk)

theorem steps_preserve_key (k u : List Char) (t t' : PosterState)
    (h : Relation.ReflTransGen Step t t')
    (h1 : assocFind t.posterCache k = some u) (h2 : k ∉ t.pendingFetch) :
    assocFind t'.posterCache k = some u ∧ k ∉ t'.pendingFetch := by
  induction h with
  | refl => exact ⟨h1, h2⟩
  | tail hab hbc ih => exact step_preserves_key k u _ _ hbc ih.1 ih.2

theorem settle_removes_key (s : PosterState) (src : List Char) (b : Bool)
    (fetch : List Char → FetchOutcome) :
    cacheKey src b ∉ ((settleStep s src b fetch).1).pendingFetch := by
  simp only [settleStep]
  intro hk
  have := (List.mem_filter.mp hk).2
  simp at this

theorem step_preserves_inv (s t : PosterState) (hst : Step s t)
    (ih1 : s.pendingFetch.Nodup)
    (ih2 : ∀ k, k ∈ s.pendingFetch → assocFind s.posterCache k = none)
    (ih3 : ∀ p, p ∈ s.posterCache → p.2 ≠ []) :
    t.pendingFetch.Nodup ∧
    (∀ k, k ∈ t.pendingFetch → assocFind t.posterCache k = none) ∧
    (∀ p, p ∈ t.posterCache → p.2 ≠ []) := by
  cases hst with
  | call src b =>
    simp only [callStep]
    cases hf : assocFind s.posterCache (cacheKey src b) with
    | some v => simp only [hf]; exact ⟨ih1, ih2, ih3⟩
    | none =>
      simp only [hf]
      by_cases hm : cacheKey src b ∈ s.pendingFetch
      · rw [if_pos hm]; exact ⟨ih1, ih2, ih3⟩
      · rw [if_neg hm]
        refine ⟨List.nodup_cons.mpr ⟨hm, ih1⟩, ?_, ih3⟩
        intro k hk
        rcases List.mem_cons.mp hk with he | hm2
        · rw [he]; exact hf
        · exact ih2 k hm2
  | settle src b fetch hmem =>
    simp only [settleStep]
    cases hc : (runProbes fetch src b).cached with
    | none =>
      simp only [hc]
      refine ⟨ih1.filter _, ?_, ih3⟩
      intro k hk
      exact ih2 k (List.mem_of_mem_filter hk)
    | some u =>
      simp only [hc]
      refine ⟨ih1.filter _, ?_, ?_⟩
      · intro k hk
        have hk' := List.mem_filter.mp hk
        have hkne : k ≠ cacheKey src b := by simpa using hk'.2
        rw [assocFind_cons_ne _ _ _ _ (Ne.symm hkne)]
        exact ih2 k hk'.1
      · intro p hp
        rcases List.mem_cons.mp hp with he | hp2
        · rw [he]
          exact (runProbes_cached fetch src b u hc).2.1
        · exact ih3 p hp2

theorem reachable_inv (s : PosterState) (h : Reachable s) :
    s.pendingFetch.Nodup ∧
    (∀ k, k ∈ s.pendingFetch → assocFind s.posterCache k = none) ∧
    (∀ p, p ∈ s.posterCache → p.2 ≠ []) := by
  unfold Reachable at h
  induction h with
  | refl =>
    refine ⟨List.nodup_nil, ?_, ?_⟩
    · intro k hk; exact absurd hk (List.not_mem_nil k)
    · intro p hp; exact absurd hp (List.not_mem_nil p)
  | tail hab hbc ih =>
    exact step_preserves_inv _ _ hbc ih.1 ih.2.1 ih.2.2

/-! ## Claim theorems about the cache state machine -/

/-- C3: after the probe sequence of a key settles with a nonempty URL u,
every later call of findTwitchPoster with the same src and isChannel
returns u from posterCache, performing no state change and starting no new
fetch, in every state reachable from the settled one. -/
theorem findTwitchPoster_cache_hit (s s' : PosterState) (src : List Char)
    (b : Bool) (fetch : List Char → FetchOutcome) (u : List Char)
    (hres : (runProbes fetch src b).result = u) (hne : u ≠ [])
    (hs : Relation.ReflTransGen Step ((settleStep s src b fetch).1) s') :
    callStep s' src b = (s', CallResult.cached u) := by
  have hc : (runProbes fetch src b).cached = some u := by
    rw [← hres]
    exact runProbes_result_cached fetch src b (by rw [hres]; exact hne)
  have h1 : assocFind ((settleStep s src b fetch).1).posterCache
      (cacheKey src b) = some u := by
    simp only [settleStep, hc]
    show (if cacheKey src b = cacheKey src b then some u else _) = some u
    rw [if_pos rfl]
  obtain ⟨hh1, hh2⟩ := steps_preserve_key (cacheKey src b) u _ _ hs h1
    (settle_removes_key s src b fetch)
  simp only [callStep, hh1]

/-- Witness for C3: a successful settle followed by an immediate second
call returns the cached first URL. -/
theorem findTwitchPoster_cache_hit_witness :
    callStep ((settleStep initState ("a".toList) true
        (fun _ => FetchOutcome.ok 200)).1) ("a".toList) true =
      ((settleStep initState ("a".toList) true
        (fun _ => FetchOutcome.ok 200)).1,
        CallResult.cached (channelPosterUrl ("a".toList) 1920 1080)) :=
  findTwitchPoster_cache_hit initState _ ("a".toList) true
    (fun _ => FetchOutcome.ok 200) (channelPosterUrl ("a".toList) 1920 1080)
    rfl (by decide) Relation.ReflTransGen.refl

/-- C4: in every reachable state the pendingFetch map holds at most one
in-flight probe sequence per key; a call made while the key is pending
returns the pending promise and changes nothing, and the key is removed
from pendingFetch exactly when its promise settles: settling deletes the
key and only that key, and a call never deletes any key. -/
theorem pendingFetch_single_flight (s : PosterState) (h : Reachable s) :
    s.pendingFetch.Nodup ∧
    (∀ src b, cacheKey src b ∈ s.pendingFetch →
      callStep s src b = (s, CallResult.pendingHit)) ∧
    (∀ src b fetch, cacheKey src b ∉ ((settleStep s src b fetch).1).pendingFetch) ∧
    (∀ src b x, x ∈ s.pendingFetch → x ∈ ((callStep s src b).1).pendingFetch) ∧
    (∀ src b fetch x, x ∈ s.pendingFetch → x ≠ cacheKey src b →
      x ∈ ((settleStep s src b fetch).1).pendingFetch) := by
  obtain ⟨i1, i2, _⟩ := reachable_inv s h
  refine ⟨i1, ?_, ?_, ?_, ?_⟩
  · intro src b hm
    have hf := i2 _ hm
    simp only [callStep, hf, if_pos hm]
  · intro src b fetch
    exact settle_removes_key s src b fetch
  · intro src b x hx
    simp only [callStep]
    cases hf : assocFind s.posterCache (cacheKey src b) with
    | some v => simp only [hf]; exact hx
    | none =>
      simp only [hf]
      by_cases hm : cacheKey src b ∈ s.pendingFetch
      · rw [if_pos hm]; exact hx
      · rw [if_neg hm]; exact List.mem_cons_of_mem _ hx
  · intro src b fetch x hx hne
    simp only [settleStep]
    rw [List.mem_filter]
    exact ⟨hx, by simpa using hne⟩

/-- Witness for C4: a second call made while the first is in flight
returns the pending promise and leaves the state unchanged. -/
theorem pendingFetch_single_flight_witness :
    callStep ((callStep initState ("a".toList) true).1) ("a".toList) true =
      (((callStep initState ("a".toList) true).1), CallResult.pendingHit) :=
  (pendingFetch_single_flight ((callStep initState ("a".toList) true).1)
    (Relation.ReflTransGen.single (Step.call initState ("a".toList) true))).2.1
    ("a".toList) true (by decide)

/-- C10: posterCache only accumulates successes: in every reachable state
each stored value is nonempty, a stored value always comes from a probe
whose response had status < 400 and equals the resolved result, a run that
stores nothing leaves posterCache untouched, and after a failed run the
same key starts a full new probe sequence on the next call. -/
theorem posterCache_only_successes (s : PosterState) (h : Reachable s)
    (fetch : List Char → FetchOutcome) (src : List Char) (b : Bool) :
    (∀ p, p ∈ s.posterCache → p.2 ≠ []) ∧
    (∀ u, (runProbes fetch src b).cached = some u →
      (runProbes fetch src b).result = u ∧ u ≠ [] ∧
      ∃ st, fetch u = FetchOutcome.ok st ∧ st < 400) ∧
    ((runProbes fetch src b).cached = none →
      ((settleStep s src b fetch).1).posterCache = s.posterCache) ∧
    (assocFind s.posterCache (cacheKey src b) = none →
      (runProbes fetch src b).cached = none →
      (callStep ((settleStep s src b fetch).1) src b).2 = CallResult.started) := by
  refine ⟨(reachable_inv s h).2.2,
    fun u hu => runProbes_cached fetch src b u hu, ?_, ?_⟩
  · intro hc
    simp only [settleStep, hc]
  · intro hf hc
    have hpc : ((settleStep s src b fetch).1).posterCache = s.posterCache := by
      simp only [settleStep, hc]
    simp only [callStep, hpc, hf,
      if_neg (settle_removes_key s src b fetch)]

/-- Witness for C10: after a run in which every probe answers 500, the
cache is unchanged and the next call for the same key starts over. -/
theorem posterCache_only_successes_witness :
    (callStep ((settleStep initState ("a".toList) true
        (fun _ => FetchOutcome.ok 500)).1) ("a".toList) true).2 =
      CallResult.started :=
  (posterCache_only_successes initState Relation.ReflTransGen.refl
    (fun _ => FetchOutcome.ok 500) ("a".toList) true).2.2.2 rfl (by decide)

/-- Witness for C8: a concrete quality whose name matches the active
quality is converted with selected set. -/
theorem twitchQualityToVideoQuality_fields_witness :
    (twitchQualityToVideoQuality ⟨"720p60", 1280, 720, 3000000, "avc1"⟩
      (some "720p60")).selected = true :=
  (twitchQualityToVideoQuality_fields ⟨"720p60", 1280, 720, 3000000, "avc1"⟩
    (some "720p60")).2.2.2.2.2.mpr rfl
